import Mathlib

/-!
Shallow embedding of the index-block subsystem of wtsTCSAM2015
(src/ModelIndexBlocks.cpp, with constants from include/ModelConstants.hpp and
the static configuration values of src/ModelConfiguration.cpp).

Strings are modelled as `List Char`.  ADMB `adstring` positions are 1-based:
`pos` returns the 1-based position of the first occurrence of a character and
0 when absent, and `str(i,j)` is the 1-based inclusive substring, modelled
here by clamped drop/take.  `::atoi` is C `atoi` on a whitespace-free token:
an optional sign followed by leading digits, 0 when no digits are present.
Fatal `exit(-1)` branches are modelled by `Option` results (`none` = the
process terminates), and the warning-only branch of `IndexBlockSet::setType`
by `none` in an `Option (Int × Int)` result (bounds left unresolved).
-/

/-- Static model configuration consulted by the subsystem
(`ModelConfiguration::mnYr/mxYr/nZBs/nFsh/nSrv`). -/
structure ModelConfig where
  mnYr : Int
  mxYr : Int
  nZBs : Int
  nFsh : Int
  nSrv : Int

/-- Number of model sexes, `tcsam::nSXs` (ModelConstants.hpp line 54). -/
def nSXs : Int := 2

/-- Number of model maturity states, `tcsam::nMSs` (ModelConstants.hpp line 64). -/
def nMSs : Int := 2

/-- Number of model shell conditions, `tcsam::nSCs` (ModelConstants.hpp line 74). -/
def nSCs : Int := 2

/-- Helper for `posOf`: 1-based position of the first occurrence of `c`,
counting the head of the list as position `k`; 0 when absent. -/
def posFromAux (c : Char) : List Char → Nat → Nat
  | [], _ => 0
  | d :: t, k => if d = c then k else posFromAux c t (k + 1)

/-- ADMB `adstring::pos`: 1-based position of the first occurrence of `c` in
`s`, 0 when `c` does not occur. -/
def posOf (c : Char) (s : List Char) : Nat := posFromAux c s 1

/-- ADMB `adstring` substring `s(i,j)`: the 1-based inclusive slice from
position `i` to position `j`, modelled by clamped drop/take. -/
def substr (s : List Char) (i j : Nat) : List Char := (s.drop (i - 1)).take (j + 1 - i)

/-- Numeric value of a digit character. -/
def digitVal (c : Char) : Nat := c.toNat - 48

/-- Leading-digit accumulator of C `atoi`: consume decimal digits from the
front of the list into `acc`, stopping at the first non-digit. -/
def leadNatAux : List Char → Nat → Nat
  | [], acc => acc
  | c :: t, acc => if c.isDigit then leadNatAux t (10 * acc + digitVal c) else acc

/-- Value of the maximal leading digit run of `s` (0 when there is none). -/
def leadNat (s : List Char) : Nat := leadNatAux s 0

/-- C `::atoi` on a whitespace-free token: optional `-`/`+` sign, then the
leading digit run; 0 when no digits follow. -/
def atoi : List Char → Int
  | [] => 0
  | c :: t =>
    if c = '-' then -(leadNat t : Int)
    else if c = '+' then (leadNat t : Int)
    else (leadNat (c :: t) : Int)

/-- Decimal digit character for `d < 10` (larger arguments are never used). -/
def digitChar (d : Nat) : Char :=
  match d with
  | 0 => '0'
  | 1 => '1'
  | 2 => '2'
  | 3 => '3'
  | 4 => '4'
  | 5 => '5'
  | 6 => '6'
  | 7 => '7'
  | 8 => '8'
  | _ => '9'

/-- Fuelled decimal rendering of a natural number in front of `acc`, most
significant digit first; any fuel above the digit count gives the full
rendering. -/
def natCharsGo : Nat → Nat → List Char → List Char
  | 0, _, acc => acc
  | fuel + 1, n, acc =>
    if n < 10 then digitChar n :: acc
    else natCharsGo fuel (n / 10) (digitChar (n % 10) :: acc)

/-- Decimal rendering of a natural number, as emitted by `operator<<`. -/
def natChars (n : Nat) : List Char := natCharsGo (n + 1) n []

/-- Decimal rendering of an integer, as emitted by `operator<<` on `int`. -/
def intChars (n : Int) : List Char :=
  if n < 0 then '-' :: natChars (-n).toNat else natChars n.toNat

/-- Index vector of `IndexRange::createRangeVector(mn,mx)` (ModelIndexBlocks.cpp
lines 27-32): the integers `mn, mn+1, ..., mx` in order; empty when `mx < mn`
(the C++ fill loop runs `mx-mn+1` times and ADMB allocation of an empty bound
pair yields an empty vector). -/
def rangeList (mn mx : Int) : List Int :=
  (List.range (mx + 1 - mn).toNat).map (fun (i : Nat) => mn + (i : Int))

/-- State of an `IndexRange` after parsing: the substitution bounds it was
constructed with, its resolved bounds and its backing index vector `iv`. -/
structure IndexRange where
  modMin : Int
  modMax : Int
  mn : Int
  mx : Int
  iv : List Int
deriving Repr, DecidableEq

/-- Result of `IndexRange::createRangeVector` on a range constructed with
bounds `(modMin, modMax)`: store `mn`, `mx` and rebuild `iv` from them. -/
def IndexRange.create (modMin modMax mn mx : Int) : IndexRange :=
  ⟨modMin, modMax, mn, mx, rangeList mn mx⟩

/-- `IndexRange::parse` (ModelIndexBlocks.cpp lines 39-52): when the text
contains a `:` (1-based position `i` nonzero), the first operand is
`atoi(str(1,i-1))` and the second `atoi(str(i+1,size))`, each replaced by the
corresponding default bound when negative; otherwise the whole text is a
single integer and `mn = mx = atoi(str)` with no substitution.  The routine
ends by calling `createRangeVector(mn,mx)`. -/
def parseRange (modMin modMax : Int) (s : List Char) : IndexRange :=
  if posOf ':' s ≠ 0 then
    IndexRange.create modMin modMax
      (if atoi (substr s 1 (posOf ':' s - 1)) < 0 then modMin
       else atoi (substr s 1 (posOf ':' s - 1)))
      (if atoi (substr s (posOf ':' s + 1) s.length) < 0 then modMax
       else atoi (substr s (posOf ':' s + 1) s.length))
  else
    IndexRange.create modMin modMax (atoi s) (atoi s)

/-- `IndexRange::write` (ModelIndexBlocks.cpp lines 74-76): emit `mn:mx` when
`iv.size() > 1`, else just `mn`. -/
def writeRange (r : IndexRange) : List Char :=
  if 1 < r.iv.length then intChars r.mn ++ ':' :: intChars r.mx else intChars r.mn

/-- Helper for `splitSemi`: accumulate the current segment (reversed) while
scanning for the next semicolon. -/
def splitSemiAux : List Char → List Char → List (List Char)
  | [], acc => [acc.reverse]
  | c :: t, acc => if c = ';' then acc.reverse :: splitSemiAux t [] else splitSemiAux t (c :: acc)

/-- The segment decomposition performed by the loops of `IndexBlock::parse`
(ModelIndexBlocks.cpp lines 143-165): repeatedly cut the text at the first
`;`, each piece becoming one range string, the remainder after the last `;`
being the final range string. -/
def splitSemi (s : List Char) : List (List Char) := splitSemiAux s []

/-- One assignment `ivRev[i] = pos` into the reverse map, modelled as a
pointwise update of a total function (unwritten entries keep the initial 0,
matching `ivRev = 0` in ModelIndexBlocks.cpp line 110). -/
def revWrite (rev : Int → Int) (i pos : Int) : Int → Int :=
  fun j => if j = i then pos else rev j

/-- The double loop of `IndexBlock::createIndexVectors` (ModelIndexBlocks.cpp
lines 111-119) acting on the flattened forward enumeration: visiting model
index `i` as the `n+1`-st forward entry sets `ivRev[i] = n+1`. -/
def buildRevAux : List Int → Nat → (Int → Int) → (Int → Int)
  | [], _, rev => rev
  | i :: rest, n, rev => buildRevAux rest (n + 1) (revWrite rev i (n + 1))

/-- State of an `IndexBlock` after parsing: its bounds, its owned ranges, the
forward map `ivFwd` (1-based positions modelled as list order) and the
reverse map `ivRev` as a total function with default 0. -/
structure IndexBlock where
  modMin : Int
  modMax : Int
  ranges : List IndexRange
  ivFwd : List Int
  ivRev : Int → Int

/-- `IndexBlock::createIndexVectors` (ModelIndexBlocks.cpp lines 99-121):
`ivFwd` is the concatenation, in range order, of each range's indices from
its `mn` to its `mx`; `ivRev` starts at 0 everywhere and is written in the
same order with the running 1-based forward counter, so later ranges
overwrite earlier entries at the same model index. -/
def mkIndexBlock (modMin modMax : Int) (rs : List IndexRange) : IndexBlock :=
  ⟨modMin, modMax, rs,
   (rs.map (fun r => rangeList r.mn r.mx)).flatten,
   buildRevAux ((rs.map (fun r => rangeList r.mn r.mx)).flatten) 0 (fun _ => 0)⟩

/-- `IndexBlock::parse` (ModelIndexBlocks.cpp lines 134-172): the only format
check is that the first character is `[` (lines 136-141, `exit(-1)` modelled
as `none`); the last character is then stripped unconditionally by
`str1(2,str1.size()-1)` (line 142), the interior is split at semicolons, each
segment is parsed as a range with this block's bounds, and the index vectors
are rebuilt. -/
def parseBlock (modMin modMax : Int) (s : List Char) : Option IndexBlock :=
  if s.take 1 = ['['] then
    some (mkIndexBlock modMin modMax
      ((splitSemi (substr s 2 (s.length - 1))).map (parseRange modMin modMax)))
  else none

/-- The dispatch-key computation of `IndexBlockSet::setType`
(ModelIndexBlocks.cpp lines 220-222): when the stored type text contains an
underscore, everything from the first underscore onward is stripped before
the key comparisons. -/
def stripAtUnderscore (theType : List Char) : List Char :=
  if posOf '_' theType ≠ 0 then substr theType 1 (posOf '_' theType - 1) else theType

/-- The bound resolution of `IndexBlockSet::setType` (ModelIndexBlocks.cpp
lines 219-258): compare the stripped dispatch key against `"YEAR"`,
`tcsam::STR_SEX`, `tcsam::STR_MATURITY_STATE`, `tcsam::STR_SHELL_CONDITION`,
`tcsam::STR_SIZE`, `tcsam::STR_FISHERY`, `tcsam::STR_SURVEY` in that order;
`none` is the final warning branch, which leaves `modMin`/`modMax`
unresolved.  The maturity and shell-condition branches set `modMax` to
`tcsam::nSXs` exactly as the source does (lines 231-237). -/
def setTypeLimits (cfg : ModelConfig) (theType : List Char) : Option (Int × Int) :=
  if stripAtUnderscore theType = "YEAR".toList then some (cfg.mnYr, cfg.mxYr)
  else if stripAtUnderscore theType = "SEX".toList then some (1, nSXs)
  else if stripAtUnderscore theType = "MATURITY_STATE".toList then some (1, nSXs)
  else if stripAtUnderscore theType = "SHELL_CONDITION".toList then some (1, nSXs)
  else if stripAtUnderscore theType = "SIZE".toList then some (1, cfg.nZBs)
  else if stripAtUnderscore theType = "FISHERY".toList then some (1, cfg.nFsh)
  else if stripAtUnderscore theType = "SURVEY".toList then some (1, cfg.nSrv)
  else none

/-- State of an `IndexBlockSet`: its resolved type string, its bounds and its
owned blocks in id order. -/
structure IndexBlockSet where
  type : List Char
  modMin : Int
  modMax : Int
  blocks : List IndexBlock

/-- The scan loop of `IndexBlockSets::getIndexBlockSet(adstring)`
(ModelIndexBlocks.cpp lines 337-348): the cursor `p` is set to each set in
slot order before its type is tested, the loop breaks at the first match, and
`p` — initialized to the null pointer, modelled as `none` — is returned as is
when the slots run out. -/
def getIBSByTypeAux (t : List Char) : List IndexBlockSet → Option IndexBlockSet → Option IndexBlockSet
  | [], p => p
  | b :: rest, _ => if b.type = t then some b else getIBSByTypeAux t rest (some b)

/-- `IndexBlockSets::getIndexBlockSet(adstring)`: scan the sets in slot order
starting from a null cursor. -/
def getIndexBlockSet (sets : List IndexBlockSet) (t : List Char) : Option IndexBlockSet :=
  getIBSByTypeAux t sets none

/-- The per-triple acceptance test of `IndexBlockSets::read`
(ModelIndexBlocks.cpp line 371): a `(keyword, slot)` pair read for one of the
`n` declared sets is accepted — and the set body is then read into slot
`k-1` — exactly when the keyword equals `INDEX_BLOCK_SET` and `k <= n`;
otherwise the diagnostic of lines 376-380 is printed and the process exits. -/
def readIndexBlockSetTriple (n : Int) (kw : List Char) (k : Int) : Bool :=
  kw == "INDEX_BLOCK_SET".toList && decide (k ≤ n)

/-- `tcsam::getIndexLimits` (ModelIndexBlocks.cpp lines 405-432): resolve the
bound pair for a dimension-type key by direct comparison (no underscore
stripping) against `STR_YEAR`, `STR_SIZE`, `STR_SEX`, `STR_MATURITY_STATE`
and `STR_SHELL_CONDITION`; every other key reaches the `exit(-1)` branch,
modelled as `none`. -/
def getIndexLimits (cfg : ModelConfig) (idxType : List Char) : Option (Int × Int) :=
  if idxType = "YEAR".toList then some (cfg.mnYr, cfg.mxYr)
  else if idxType = "SIZE".toList then some (1, cfg.nZBs)
  else if idxType = "SEX".toList then some (1, nSXs)
  else if idxType = "MATURITY_STATE".toList then some (1, nMSs)
  else if idxType = "SHELL_CONDITION".toList then some (1, nSCs)
  else none

/-- Field `mn` of a freshly created range is the requested minimum. -/
theorem IndexRange.create_mn (a b c d : Int) : (IndexRange.create a b c d).mn = c := rfl

/-- Field `mx` of a freshly created range is the requested maximum. -/
theorem IndexRange.create_mx (a b c d : Int) : (IndexRange.create a b c d).mx = d := rfl

/-- Field `iv` of a freshly created range is rebuilt from the requested bounds. -/
theorem IndexRange.create_iv (a b c d : Int) : (IndexRange.create a b c d).iv = rangeList c d := rfl

/-- On a text containing a colon, the parsed minimum is the first operand with
the negative-default substitution applied. -/
theorem parseRange_mn_colon (mnl mxl : Int) (s : List Char) (h0 : posOf ':' s ≠ 0) :
    (parseRange mnl mxl s).mn =
      (if atoi (substr s 1 (posOf ':' s - 1)) < 0 then mnl
       else atoi (substr s 1 (posOf ':' s - 1))) := by
  unfold parseRange
  rw [if_pos h0]
  rfl

/-- On a text containing a colon, the parsed maximum is the second operand with
the negative-default substitution applied. -/
theorem parseRange_mx_colon (mnl mxl : Int) (s : List Char) (h0 : posOf ':' s ≠ 0) :
    (parseRange mnl mxl s).mx =
      (if atoi (substr s (posOf ':' s + 1) s.length) < 0 then mxl
       else atoi (substr s (posOf ':' s + 1) s.length)) := by
  unfold parseRange
  rw [if_pos h0]
  rfl

/-- On a text without a colon, parsing takes the singleton branch verbatim. -/
theorem parseRange_no_colon (mnl mxl : Int) (s : List Char) (h : posOf ':' s = 0) :
    parseRange mnl mxl s = IndexRange.create mnl mxl (atoi s) (atoi s) := by
  unfold parseRange
  rw [if_neg (fun hn => hn h)]

/-- The backing vector of any parsed range is rebuilt from its resolved bounds. -/
theorem parseRange_iv (mnl mxl : Int) (s : List Char) :
    (parseRange mnl mxl s).iv = rangeList (parseRange mnl mxl s).mn (parseRange mnl mxl s).mx := by
  unfold parseRange
  split <;> rfl

/-- C1 (counterexample): for `modMin=1, modMax=5`, parsing `[1:3;2:5]` maps
model indices 2 and 3 to the 4th and 5th forward entries, not the 5th and 6th
as claimed. -/
theorem overlap_rev_counterexample :
    ((parseBlock 1 5 ("[1:3;2:5]".toList)).map (fun b => (b.ivRev 2, b.ivRev 3)) = some (4, 5)) ∧
    ¬ ((parseBlock 1 5 ("[1:3;2:5]".toList)).map (fun b => (b.ivRev 2, b.ivRev 3)) = some (5, 6)) := by
  constructor <;> decide

/-- C1 (amended): for an IndexBlock with `modMin=1, modMax=5`, parsing
`[1:3;2:5]` yields the forward map `[1,2,3,2,3,4,5]` (length 7, duplicates
kept) and a reverse map sending model indices 1..5 to forward positions
1, 4, 5, 6, 7: indices 2 and 3 map to the second range's local positions
(the 4th and 5th forward entries), later ranges overwriting earlier entries
at the same model index. -/
theorem block_union_overlap_maps :
    ((parseBlock 1 5 ("[1:3;2:5]".toList)).map (fun b => b.ivFwd) = some [1, 2, 3, 2, 3, 4, 5]) ∧
    ((parseBlock 1 5 ("[1:3;2:5]".toList)).map
        (fun b => (b.ivRev 1, b.ivRev 2, b.ivRev 3, b.ivRev 4, b.ivRev 5)) = some (1, 4, 5, 6, 7)) := by
  constructor <;> decide

/-- C2 (code evaluated at the failing input): `IndexBlockSet::setType` strips
the type text at the first underscore before every comparison, so the exact
keys `MATURITY_STATE` and `SHELL_CONDITION` become `MATURITY` and `SHELL`,
match no branch, and fall into the warning branch with the bounds left
unresolved — while the five underscore-free keys resolve as documented. -/
theorem setType_underscore_strip_bug (cfg : ModelConfig) :
    setTypeLimits cfg ("MATURITY_STATE".toList) = none ∧
    setTypeLimits cfg ("SHELL_CONDITION".toList) = none ∧
    stripAtUnderscore ("MATURITY_STATE".toList) = "MATURITY".toList ∧
    stripAtUnderscore ("SHELL_CONDITION".toList) = "SHELL".toList ∧
    setTypeLimits cfg ("YEAR".toList) = some (cfg.mnYr, cfg.mxYr) ∧
    setTypeLimits cfg ("SEX".toList) = some (1, nSXs) ∧
    setTypeLimits cfg ("SIZE".toList) = some (1, cfg.nZBs) ∧
    setTypeLimits cfg ("FISHERY".toList) = some (1, cfg.nFsh) ∧
    setTypeLimits cfg ("SURVEY".toList) = some (1, cfg.nSrv) :=
  ⟨rfl, rfl, by decide, by decide, rfl, rfl, rfl, rfl, rfl⟩

/-- C3 (counterexample): with 3 declared sets, the keyword `INDEX_BLOCK_SET`
with slot value 0 — and even slot value -2 — passes the acceptance test of
`IndexBlockSets::read`, although the claim says any slot outside `1..n` is
rejected fatally. -/
theorem slot_zero_accepted_counterexample :
    readIndexBlockSetTriple 3 ("INDEX_BLOCK_SET".toList) 0 = true ∧
    readIndexBlockSetTriple 3 ("INDEX_BLOCK_SET".toList) (-2) = true := by
  constructor <;> decide

/-- C3 (amended): a declared triple of `IndexBlockSets::read` is accepted
exactly when its keyword equals `INDEX_BLOCK_SET` and its slot value is at
most `n`; only the upper bound is checked, so a slot value of 0 or a negative
slot value is not rejected. -/
theorem ibs_triple_accept_iff (n : Int) (kw : List Char) (k : Int) :
    readIndexBlockSetTriple n kw k = true ↔ (kw = "INDEX_BLOCK_SET".toList ∧ k ≤ n) := by
  simp [readIndexBlockSetTriple]

/-- C4 (counterexample): `IndexBlock::parse` accepts `[1:3;2:5X`, whose last
character is not `]`, although the claim says a missing closing bracket is a
fatal error. -/
theorem missing_close_bracket_accepted :
    (parseBlock 1 5 ("[1:3;2:5X".toList)).isSome = true ∧
    ("[1:3;2:5X".toList).getLast? ≠ some ']' := by
  constructor <;> decide

/-- C4 (amended): `IndexBlock::parse(text)` terminates fatally exactly when
the text does not begin with `[`; the final character is stripped without
ever being compared against `]`, so acceptance guarantees only the opening
delimiter. -/
theorem parseBlock_fatal_iff_open_bracket (mnl mxl : Int) (s : List Char) :
    parseBlock mnl mxl s = none ↔ ¬ (s.take 1 = ['[']) := by
  unfold parseBlock
  split <;> simp_all

/-- C5 (counterexample): searching two sets of types `A`, `B` for the absent
type `C` returns the second (last) contained set rather than a not-found
indication. -/
theorem getIBS_no_match_returns_last :
    (getIndexBlockSet [⟨"A".toList, 1, 5, []⟩, ⟨"B".toList, 1, 5, []⟩] ("C".toList)).isSome = true ∧
    (getIndexBlockSet [⟨"A".toList, 1, 5, []⟩, ⟨"B".toList, 1, 5, []⟩] ("C".toList)).map
      IndexBlockSet.type = some ("B".toList) := by
  exact ⟨rfl, rfl⟩

/-- The scan of `IndexBlockSets::getIndexBlockSet` with cursor `p`: the first
matching set wins; with no match the cursor ends at the last set, or stays as
it began when there are no sets. -/
theorem getIBSByTypeAux_eq (t : List Char) (sets : List IndexBlockSet) (p : Option IndexBlockSet) :
    getIBSByTypeAux t sets p =
      if (sets.find? (fun b => b.type == t)).isSome then sets.find? (fun b => b.type == t)
      else if sets.isEmpty then p else sets.getLast? := by
  induction sets generalizing p with
  | nil => rfl
  | cons b rest ih =>
    rw [getIBSByTypeAux]
    by_cases hb : b.type = t
    · simp [hb, List.find?_cons]
    · have hbf : (b.type == t) = false := beq_eq_false_iff_ne.mpr hb
      rw [if_neg hb, ih]
      simp only [List.find?_cons, hbf, List.isEmpty_cons]
      cases hf : rest.find? (fun b => b.type == t) with
      | some y => simp [hf]
      | none =>
        cases rest with
        | nil => simp
        | cons c cs => simp [List.getLast?_cons_cons]

/-- C5 (amended): `IndexBlockSets::getIndexBlockSet(type)` returns the first
set, in slot order, whose resolved type equals the query; when no set
matches it returns the last contained set (so only an empty collection
produces the null "not found" cursor). -/
theorem getIndexBlockSet_scan (sets : List IndexBlockSet) (t : List Char) :
    getIndexBlockSet sets t =
      (if (sets.find? (fun b => b.type == t)).isSome then sets.find? (fun b => b.type == t)
       else sets.getLast?) := by
  rw [getIndexBlockSet, getIBSByTypeAux_eq]
  cases sets with
  | nil => simp
  | cons b rest => simp

/-- C6: in `IndexRange::parse` of a two-operand range, an operand strictly
below 0 is replaced by the matching default bound — the first by `modMin`,
the second by `modMax` — as in the `-1:2000` and `1980:-1` examples with
bounds 1950/2020, and a non-negative operand is never substituted. -/
theorem parseRange_default_substitution :
    ((parseRange 1950 2020 ("-1:2000".toList)).mn = 1950 ∧
     (parseRange 1950 2020 ("-1:2000".toList)).mx = 2000) ∧
    ((parseRange 1950 2020 ("1980:-1".toList)).mn = 1980 ∧
     (parseRange 1950 2020 ("1980:-1".toList)).mx = 2020) ∧
    (∀ (mnl mxl : Int) (s : List Char), posOf ':' s ≠ 0 →
      0 ≤ atoi (substr s 1 (posOf ':' s - 1)) →
      (parseRange mnl mxl s).mn = atoi (substr s 1 (posOf ':' s - 1))) ∧
    (∀ (mnl mxl : Int) (s : List Char), posOf ':' s ≠ 0 →
      0 ≤ atoi (substr s (posOf ':' s + 1) s.length) →
      (parseRange mnl mxl s).mx = atoi (substr s (posOf ':' s + 1) s.length)) := by
  refine ⟨by constructor <;> decide, by constructor <;> decide, ?_, ?_⟩
  · intro mnl mxl s h0 hx
    rw [parseRange_mn_colon mnl mxl s h0, if_neg (by omega)]
  · intro mnl mxl s h0 hy
    rw [parseRange_mx_colon mnl mxl s h0, if_neg (by omega)]

/-- Witness for C6: the two-operand text `3:7` with bounds 1/9 parses without
substitution on either side. -/
theorem parseRange_default_substitution_witness :
    (parseRange 1 9 ("3:7".toList)).mn =
      atoi (substr ("3:7".toList) 1 (posOf ':' ("3:7".toList) - 1)) ∧
    (parseRange 1 9 ("3:7".toList)).mx =
      atoi (substr ("3:7".toList) (posOf ':' ("3:7".toList) + 1) ("3:7".toList).length) :=
  ⟨parseRange_default_substitution.2.2.1 1 9 ("3:7".toList) (by decide) (by decide),
   parseRange_default_substitution.2.2.2 1 9 ("3:7".toList) (by decide) (by decide)⟩

/-- C9 (counterexample): with fishery count 4, the dimension-bounds resolver
`tcsam::getIndexLimits` aborts on `FISHERY` instead of returning `(1, 4)`. -/
theorem getIndexLimits_fishery_counterexample :
    getIndexLimits ⟨1950, 2020, 32, 4, 3⟩ ("FISHERY".toList) = none ∧
    ¬ (getIndexLimits ⟨1950, 2020, 32, 4, 3⟩ ("FISHERY".toList) = some (1, 4)) := by
  constructor <;> decide

/-- C9 (amended): `tcsam::getIndexLimits` resolves bounds for exactly the
keys `YEAR`, `SIZE`, `SEX`, `MATURITY_STATE` and `SHELL_CONDITION`; the keys
`FISHERY` and `SURVEY` have no branch and reach the aborting diagnostic. -/
theorem getIndexLimits_dispatch (cfg : ModelConfig) :
    getIndexLimits cfg ("YEAR".toList) = some (cfg.mnYr, cfg.mxYr) ∧
    getIndexLimits cfg ("SIZE".toList) = some (1, cfg.nZBs) ∧
    getIndexLimits cfg ("SEX".toList) = some (1, nSXs) ∧
    getIndexLimits cfg ("MATURITY_STATE".toList) = some (1, nMSs) ∧
    getIndexLimits cfg ("SHELL_CONDITION".toList) = some (1, nSCs) ∧
    getIndexLimits cfg ("FISHERY".toList) = none ∧
    getIndexLimits cfg ("SURVEY".toList) = none :=
  ⟨rfl, rfl, rfl, rfl, rfl, rfl, rfl⟩

/-- C10: a singleton range text (no colon) parses to `mn = mx = atoi(text)`
with no default substitution even for a negative integer, as in
`parse("-5")` yielding `mn = mx = -5`. -/
theorem parseRange_singleton_no_substitution :
    ((parseRange 1950 2020 ("-5".toList)).mn = -5 ∧
     (parseRange 1950 2020 ("-5".toList)).mx = -5) ∧
    (∀ (mnl mxl : Int) (s : List Char), posOf ':' s = 0 →
      (parseRange mnl mxl s).mn = atoi s ∧ (parseRange mnl mxl s).mx = atoi s) := by
  refine ⟨by constructor <;> decide, ?_⟩
  intro mnl mxl s h
  rw [parseRange_no_colon mnl mxl s h]
  exact ⟨rfl, rfl⟩

/-- Witness for C10: the colon-free text `-7` parses to the pair
`(atoi "-7", atoi "-7")`. -/
theorem parseRange_singleton_no_substitution_witness :
    (parseRange 1 9 ("-7".toList)).mn = atoi ("-7".toList) ∧
    (parseRange 1 9 ("-7".toList)).mx = atoi ("-7".toList) :=
  parseRange_singleton_no_substitution.2 1 9 ("-7".toList) (by decide)

/-- Every digit character produced by `digitChar` satisfies `isDigit`. -/
theorem digitChar_isDigit (n : Nat) : (digitChar n).isDigit = true := by
  unfold digitChar
  split <;> decide

/-- `digitChar` never produces a minus sign. -/
theorem digitChar_ne_minus (n : Nat) : digitChar n ≠ '-' := by
  unfold digitChar
  split <;> decide

/-- `digitChar` never produces a plus sign. -/
theorem digitChar_ne_plus (n : Nat) : digitChar n ≠ '+' := by
  unfold digitChar
  split <;> decide

/-- `digitChar` never produces a colon. -/
theorem digitChar_ne_colon (n : Nat) : digitChar n ≠ ':' := by
  unfold digitChar
  split <;> decide

/-- Reading back the digit character of `n < 10` recovers `n`. -/
theorem digitVal_digitChar (n : Nat) (h : n < 10) : digitVal (digitChar n) = n := by
  interval_cases n <;> decide

/-- Scanning the rendered digits of `n` in front of `acc` continues into `acc`
with the accumulator shifted past `n`'s digits and increased by `n`. -/
theorem leadNatAux_natCharsGo (fuel : Nat) : ∀ (n v : Nat) (acc : List Char), n < fuel →
    ∃ d, 0 < d ∧ leadNatAux (natCharsGo fuel n acc) v = leadNatAux acc (v * 10 ^ d + n) := by
  induction fuel with
  | zero => intro n v acc h; omega
  | succ f ih =>
    intro n v acc h
    rw [natCharsGo]
    by_cases h10 : n < 10
    · refine ⟨1, Nat.one_pos, ?_⟩
      rw [if_pos h10]
      have h1 : leadNatAux (digitChar n :: acc) v =
          leadNatAux acc (10 * v + digitVal (digitChar n)) := by
        simp [leadNatAux, digitChar_isDigit]
      rw [h1, digitVal_digitChar n h10, pow_one, Nat.mul_comm]
    · rw [if_neg h10]
      have h1 : n / 10 < n := Nat.div_lt_self (by omega) (by omega)
      obtain ⟨d, hd, heq⟩ := ih (n / 10) v (digitChar (n % 10) :: acc) (by omega)
      refine ⟨d + 1, by omega, ?_⟩
      rw [heq]
      have hm : n % 10 < 10 := Nat.mod_lt _ (by omega)
      have h2 : leadNatAux (digitChar (n % 10) :: acc) (v * 10 ^ d + n / 10) =
          leadNatAux acc (10 * (v * 10 ^ d + n / 10) + digitVal (digitChar (n % 10))) := by
        simp [leadNatAux, digitChar_isDigit]
      rw [h2, digitVal_digitChar _ hm]
      congr 1
      have h3 : 10 * (v * 10 ^ d + n / 10) + n % 10 =
          v * 10 ^ (d + 1) + (10 * (n / 10) + n % 10) := by ring
      rw [h3, Nat.div_add_mod]

/-- The rendering of any natural number starts with a digit character. -/
theorem natCharsGo_shape (fuel : Nat) : ∀ (n : Nat) (acc : List Char), n < fuel →
    ∃ m rest, m < 10 ∧ natCharsGo fuel n acc = digitChar m :: rest := by
  induction fuel with
  | zero => intro n acc h; omega
  | succ f ih =>
    intro n acc h
    rw [natCharsGo]
    by_cases h10 : n < 10
    · exact ⟨n, acc, h10, by rw [if_pos h10]⟩
    · rw [if_neg h10]
      have h1 : n / 10 < n := Nat.div_lt_self (by omega) (by omega)
      exact ih (n / 10) _ (by omega)

/-- Scanning the full decimal rendering of `n` recovers `n`. -/
theorem leadNat_natChars (n : Nat) : leadNat (natChars n) = n := by
  obtain ⟨d, hd, heq⟩ := leadNatAux_natCharsGo (n + 1) n 0 [] (Nat.lt_succ_self n)
  rw [leadNat, natChars, heq]
  simp [leadNatAux]

/-- `atoi` inverts the decimal rendering of a natural number. -/
theorem atoi_natChars (n : Nat) : atoi (natChars n) = (n : Int) := by
  obtain ⟨m, rest, hm, heq⟩ := natCharsGo_shape (n + 1) n [] (Nat.lt_succ_self n)
  have h2 : natChars n = digitChar m :: rest := heq
  rw [h2]
  show atoi (digitChar m :: rest) = (n : Int)
  rw [atoi, if_neg (digitChar_ne_minus m), if_neg (digitChar_ne_plus m), ← h2, leadNat_natChars]

/-- `atoi` inverts the decimal rendering of any integer. -/
theorem atoi_intChars (n : Int) : atoi (intChars n) = n := by
  rw [intChars]
  by_cases h : n < 0
  · rw [if_pos h]
    rw [atoi, if_pos rfl, leadNat_natChars]
    omega
  · rw [if_neg h, atoi_natChars]
    omega

/-- Digit renderings contain no colon. -/
theorem colon_not_mem_natCharsGo (fuel : Nat) : ∀ (n : Nat) (acc : List Char),
    ':' ∉ acc → ':' ∉ natCharsGo fuel n acc := by
  induction fuel with
  | zero => intro n acc h; simpa [natCharsGo] using h
  | succ f ih =>
    intro n acc h
    rw [natCharsGo]
    by_cases h10 : n < 10
    · rw [if_pos h10]
      intro hmem
      rcases List.mem_cons.mp hmem with h1 | h1
      · exact digitChar_ne_colon n h1.symm
      · exact h h1
    · rw [if_neg h10]
      refine ih _ _ (fun hmem => ?_)
      rcases List.mem_cons.mp hmem with h1 | h1
      · exact digitChar_ne_colon _ h1.symm
      · exact h h1

/-- Integer renderings contain no colon. -/
theorem colon_not_mem_intChars (n : Int) : ':' ∉ intChars n := by
  rw [intChars]
  by_cases h : n < 0
  · rw [if_pos h]
    intro hmem
    rcases List.mem_cons.mp hmem with h1 | h1
    · exact absurd h1 (by decide)
    · exact colon_not_mem_natCharsGo _ _ _ (List.not_mem_nil ':') h1
  · rw [if_neg h]
    exact colon_not_mem_natCharsGo _ _ _ (List.not_mem_nil ':')

/-- A character absent from a list is never found by the position scan. -/
theorem posFromAux_eq_zero (c : Char) (s : List Char) : ∀ (k : Nat), c ∉ s →
    posFromAux c s k = 0 := by
  induction s with
  | nil => intro k h; rfl
  | cons d t ih =>
    intro k h
    have hd : ¬ (d = c) := fun hdc => h (List.mem_cons.mpr (Or.inl hdc.symm))
    rw [posFromAux, if_neg hd]
    exact ih (k + 1) (fun hm => h (List.mem_cons_of_mem d hm))

/-- The position scan finds the first occurrence of `c` right after a prefix
that avoids it. -/
theorem posFromAux_append (c : Char) (b : List Char) : ∀ (a : List Char) (k : Nat), c ∉ a →
    posFromAux c (a ++ c :: b) k = k + a.length := by
  intro a
  induction a with
  | nil => intro k h; simp [posFromAux]
  | cons d t ih =>
    intro k h
    have hd : ¬ (d = c) := fun hdc => h (List.mem_cons.mpr (Or.inl hdc.symm))
    rw [List.cons_append, posFromAux, if_neg hd, ih (k + 1) (fun hm => h (List.mem_cons_of_mem d hm))]
    simp
    omega

/-- The colon separating two rendered integers sits right after the first. -/
theorem posOf_intChars_pair (a b : Int) :
    posOf ':' (intChars a ++ ':' :: intChars b) = (intChars a).length + 1 := by
  rw [posOf, posFromAux_append ':' (intChars b) (intChars a) 1 (colon_not_mem_intChars a)]
  omega

/-- Taking exactly the length of the left factor of an append returns it. -/
theorem take_append_self (a b : List Char) : (a ++ b).take a.length = a := by
  induction a with
  | nil => rfl
  | cons c t ih => simp [ih]

/-- Dropping exactly the length of the left factor of an append discards it. -/
theorem drop_append_self (a b : List Char) : (a ++ b).drop a.length = b := by
  induction a with
  | nil => rfl
  | cons c t ih => simp [ih]

/-- The substring before the separating colon is the first rendered operand. -/
theorem substr_prefix_colon (a b : List Char) :
    substr (a ++ ':' :: b) 1 (a.length + 1 - 1) = a := by
  rw [substr]
  have h1 : a.length + 1 - 1 + 1 - 1 = a.length := by omega
  rw [h1]
  simp only [Nat.sub_self, List.drop_zero]
  exact take_append_self a (':' :: b)

/-- The substring after the separating colon is the second rendered operand. -/
theorem substr_suffix_colon (a b : List Char) :
    substr (a ++ ':' :: b) (a.length + 1 + 1) (a ++ ':' :: b).length = b := by
  rw [substr]
  have h2 : (a ++ ':' :: b).length = a.length + 1 + b.length := by
    simp [List.length_append]
    omega
  have h1 : a.length + 1 + 1 - 1 = (a ++ [':']).length := by simp
  have h3 : (a ++ ':' :: b).length + 1 - (a.length + 1 + 1) = b.length := by omega
  rw [h1, h3]
  have h4 : a ++ ':' :: b = (a ++ [':']) ++ b := by simp
  rw [h4, drop_append_self, List.take_length]

/-- Parsing the rendered two-operand text `a:b` applies exactly the
negative-default substitution to the rendered values. -/
theorem parseRange_intChars_pair (mnl mxl a b : Int) :
    parseRange mnl mxl (intChars a ++ ':' :: intChars b) =
      IndexRange.create mnl mxl (if a < 0 then mnl else a) (if b < 0 then mxl else b) := by
  have hp := posOf_intChars_pair a b
  unfold parseRange
  rw [if_pos (by rw [hp]; omega), hp]
  rw [substr_prefix_colon (intChars a) (intChars b),
      substr_suffix_colon (intChars a) (intChars b), atoi_intChars, atoi_intChars]

/-- Parsing the rendered singleton text of `a` yields the singleton range at
`a` with no substitution. -/
theorem parseRange_intChars_single (mnl mxl a : Int) :
    parseRange mnl mxl (intChars a) = IndexRange.create mnl mxl a a := by
  have hp : posOf ':' (intChars a) = 0 :=
    posFromAux_eq_zero ':' (intChars a) 1 (colon_not_mem_intChars a)
  rw [parseRange_no_colon mnl mxl _ hp, atoi_intChars]

/-- A parsed minimum can be negative only as the substituted `modMin` or in
the singleton branch where it equals the maximum. -/
theorem parseRange_mn_neg (mnl mxl : Int) (s : List Char)
    (h : (parseRange mnl mxl s).mn < 0) :
    (parseRange mnl mxl s).mn = mnl ∨ (parseRange mnl mxl s).mn = (parseRange mnl mxl s).mx := by
  by_cases h0 : posOf ':' s = 0
  · right
    rw [parseRange_no_colon mnl mxl s h0]
    rfl
  · rw [parseRange_mn_colon mnl mxl s (fun hh => h0 hh)] at h ⊢
    by_cases hx : atoi (substr s 1 (posOf ':' s - 1)) < 0
    · left
      rw [if_pos hx]
    · rw [if_neg hx] at h
      omega

/-- A parsed maximum can be negative only as the substituted `modMax` or in
the singleton branch where it equals the minimum. -/
theorem parseRange_mx_neg (mnl mxl : Int) (s : List Char)
    (h : (parseRange mnl mxl s).mx < 0) :
    (parseRange mnl mxl s).mx = mxl ∨ (parseRange mnl mxl s).mn = (parseRange mnl mxl s).mx := by
  by_cases h0 : posOf ':' s = 0
  · right
    rw [parseRange_no_colon mnl mxl s h0]
    rfl
  · rw [parseRange_mx_colon mnl mxl s (fun hh => h0 hh)] at h ⊢
    by_cases hy : atoi (substr s (posOf ':' s + 1) s.length) < 0
    · left
      rw [if_pos hy]
    · rw [if_neg hy] at h
      omega

/-- The backing vector spans exactly the resolved bounds. -/
theorem rangeList_length (a b : Int) : (rangeList a b).length = (b + 1 - a).toNat := by
  unfold rangeList
  rw [List.length_map, List.length_range]

/-- The `i`-th backing-vector entry is `a + i`. -/
theorem rangeList_getElem? (a b : Int) (i : Nat) (h : i < (rangeList a b).length) :
    (rangeList a b)[i]? = some (a + i) := by
  rw [rangeList_length] at h
  unfold rangeList
  rw [List.getElem?_map, List.getElem?_range h]
  rfl

/-- C7 (counterexample): `parse("5:3")` is accepted with `mn=5, mx=3`; its
serialization is the singleton text `5`, and reparsing that text yields
`(5, 5)`, not the original `(5, 3)` — so write/parse does not round-trip for
every parsed range. -/
theorem write_roundtrip_counterexample :
    (parseRange 1 10 ("5:3".toList)).mn = 5 ∧
    (parseRange 1 10 ("5:3".toList)).mx = 3 ∧
    writeRange (parseRange 1 10 ("5:3".toList)) = "5".toList ∧
    ¬ ((parseRange 1 10 (writeRange (parseRange 1 10 ("5:3".toList)))).mx = 3) := by
  refine ⟨by decide, by decide, by decide, by decide⟩

/-- C7 (amended): `IndexRange::write` emits `mn:mx` when the range holds more
than one index and just `mn` for a singleton — so `parse("5")` writes back as
`5`, not `5:5`, and a range parsed from open-ended text writes the
substituted literal bounds (`-1:2000` with bounds 1950/2020 writes
`1950:2000`) — and for every parsed range whose resolved bounds satisfy
`mn <= mx`, reparsing the written text under the same default bounds
reproduces the same `(mn, mx)` pair. -/
theorem range_write_roundtrip :
    (writeRange (parseRange 1950 2020 ("5".toList)) = "5".toList) ∧
    (writeRange (parseRange 1950 2020 ("-1:2000".toList)) = "1950:2000".toList) ∧
    (∀ (mnl mxl : Int) (s : List Char),
      (parseRange mnl mxl s).mn ≤ (parseRange mnl mxl s).mx →
      (parseRange mnl mxl (writeRange (parseRange mnl mxl s))).mn = (parseRange mnl mxl s).mn ∧
      (parseRange mnl mxl (writeRange (parseRange mnl mxl s))).mx = (parseRange mnl mxl s).mx) := by
  refine ⟨by decide, by decide, ?_⟩
  intro mnl mxl s h
  rcases lt_or_eq_of_le h with hlt | heq
  · have hiv : (parseRange mnl mxl s).iv.length =
        ((parseRange mnl mxl s).mx + 1 - (parseRange mnl mxl s).mn).toNat := by
      rw [parseRange_iv, rangeList_length]
    have hgt : 1 < (parseRange mnl mxl s).iv.length := by
      rw [hiv]
      omega
    rw [writeRange, if_pos hgt, parseRange_intChars_pair]
    constructor
    · rw [IndexRange.create_mn]
      by_cases hn : (parseRange mnl mxl s).mn < 0
      · rcases parseRange_mn_neg mnl mxl s hn with h1 | h1
        · rw [if_pos hn, h1]
        · omega
      · rw [if_neg hn]
    · rw [IndexRange.create_mx]
      by_cases hn : (parseRange mnl mxl s).mx < 0
      · rcases parseRange_mx_neg mnl mxl s hn with h1 | h1
        · rw [if_pos hn, h1]
        · omega
      · rw [if_neg hn]
  · have hiv : (parseRange mnl mxl s).iv.length = 1 := by
      rw [parseRange_iv, rangeList_length]
      omega
    rw [writeRange, if_neg (by omega), parseRange_intChars_single]
    refine ⟨rfl, ?_⟩
    rw [IndexRange.create_mx, heq]

/-- Witness for C7: the range parsed from `2:6` with bounds 1/9 has
`mn <= mx` and survives the write/parse round-trip. -/
theorem range_write_roundtrip_witness :
    (parseRange 1 9 (writeRange (parseRange 1 9 ("2:6".toList)))).mn =
      (parseRange 1 9 ("2:6".toList)).mn ∧
    (parseRange 1 9 (writeRange (parseRange 1 9 ("2:6".toList)))).mx =
      (parseRange 1 9 ("2:6".toList)).mx :=
  range_write_roundtrip.2.2 1 9 ("2:6".toList) (by decide)

/-- C8 (counterexample): the two-operand text `7:4` is accepted by
`IndexRange::parse` (which rejects nothing), yet the parsed range violates
the claimed invariant `mn <= mx`. -/
theorem parseRange_invariant_counterexample :
    ¬ ((parseRange 1 10 ("7:4".toList)).mn ≤ (parseRange 1 10 ("7:4".toList)).mx) := by
  decide

/-- C8 (amended): for every range text whose parsed bounds satisfy
`mn <= mx`, the backing index sequence has length `mx - mn + 1` and its
`i`-th entry is `mn + i`, so it is contiguous and strictly increasing from
`mn` to `mx`; the invariant `mn <= mx` itself is not guaranteed by parsing
(see the counterexample). -/
theorem parseRange_invariant (mnl mxl : Int) (s : List Char)
    (h : (parseRange mnl mxl s).mn ≤ (parseRange mnl mxl s).mx) :
    ((parseRange mnl mxl s).iv.length : Int) =
      (parseRange mnl mxl s).mx - (parseRange mnl mxl s).mn + 1 ∧
    (∀ (i : Nat), i < (parseRange mnl mxl s).iv.length →
      (parseRange mnl mxl s).iv[i]? = some ((parseRange mnl mxl s).mn + i)) := by
  constructor
  · rw [parseRange_iv, rangeList_length]
    omega
  · intro i hi
    rw [parseRange_iv] at hi ⊢
    exact rangeList_getElem? _ _ i hi

/-- Witness for C8: the range parsed from `2:4` with bounds 1/9 satisfies
`mn <= mx`, has the claimed length, and starts at its own minimum. -/
theorem parseRange_invariant_witness :
    ((parseRange 1 9 ("2:4".toList)).iv.length : Int) =
      (parseRange 1 9 ("2:4".toList)).mx - (parseRange 1 9 ("2:4".toList)).mn + 1 ∧
    (parseRange 1 9 ("2:4".toList)).iv[0]? = some ((parseRange 1 9 ("2:4".toList)).mn + 0) :=
  ⟨(parseRange_invariant 1 9 ("2:4".toList) (by decide)).1,
   (parseRange_invariant 1 9 ("2:4".toList) (by decide)).2 0 (by decide)⟩
